import Mathlib

/-!
# Verification of the wesher cluster membership layer

Shallow embedding of `cluster/cluster.go` from the wesher repository:
key bootstrap (`computeClusterKey`), the join/leave controller
(`Cluster.Join`, `Cluster.Leave`), the membership event bridge
(`Cluster.Members`), and the facade operations (`Name`, `Update`).

External collaborators are modelled as explicit parameters:
- the memberlist gossip engine (`ml.Members`, `ml.Join`, `ml.NumMembers`,
  `ml.Leave`, `ml.Shutdown`) and DNS resolution (`net.ParseIP`,
  `net.LookupIP`) become fields of a `JoinEnv` environment or event inputs;
- the `crypto/rand` random source becomes a success flag plus a byte stream;
- the on-disk state store (`state.save`, in `state.go`, which is not part of
  the sources at hand) is modelled from the spec as an emitted effect.
-/

namespace Wesher

/-- Addresses (`net.IP`) are byte strings. `net.IP.Equal` is modelled as
plain byte-string equality; the standard library's 4-byte/16-byte IPv4
normalisation is outside this repository and irrelevant to the claims. -/
abbrev IP := List Nat

/-- Model of `net.IP.Equal` (address equality used when filtering members
in `Cluster.Join`, cluster.go line 108). -/
def IP.Equal (a b : IP) : Bool := a == b

/-- `KeyLen` (cluster.go line 18): the fixed length of cluster keys,
"must be checked by callers". -/
def KeyLen : Nat := 32

/-- `common.Node` restricted to the fields cluster.go reads or writes
(`Name`, `Addr`, `Meta`, see lines 168-172); the remaining descriptor
fields (overlay address, public key, routes) are never touched here. -/
structure Node where
  Name : String
  Addr : IP
  Meta : List Nat
  deriving DecidableEq, Repr

/-- The persisted `state` record. Its struct declaration lives in
`state.go`, which is not among the sources at hand; the field set is
modelled from the spec (§3: ClusterState = sharedSecret + knownPeers) and
from the accesses in cluster.go (`state.ClusterKey`, `state.Nodes`). -/
structure ClusterState where
  ClusterKey : List Nat
  Nodes : List Node
  deriving DecidableEq, Repr

/-- `computeClusterKey` (cluster.go lines 182-199).

The `crypto/rand` source is modelled by `randOk` (whether `rand.Read`
succeeds) and `randStream` (the bytes it would produce); a successful
`rand.Read` fills the whole `make([]byte, KeyLen)` buffer, hence the fresh
key is the first `KeyLen` stream bytes.  The terminal-echo of a freshly
generated key (lines 193-195) is output-only and not modelled.  The result
is `none` exactly when the code returns a non-nil error. -/
def computeClusterKey (st : ClusterState) (clusterKey : List Nat)
    (randOk : Bool) (randStream : Nat → Nat) :
    Option (List Nat × ClusterState) :=
  let key1 := if clusterKey.length = 0 then st.ClusterKey else clusterKey
  if key1.length = 0 then
    if randOk then
      let fresh := (List.range KeyLen).map randStream
      some (fresh, { st with ClusterKey := fresh })
    else
      none
  else
    some (key1, { st with ClusterKey := key1 })

/-- The `Cluster` struct (cluster.go lines 21-29) restricted to the fields
the claims concern.  `localNode` is a Go pointer, `none` modelling nil;
the memberlist handle and config are part of the environments below. -/
structure Cluster where
  name : String
  LocalName : String
  localNode : Option Node
  state : ClusterState
  deriving DecidableEq, Repr

/-- The record construction in `New` (cluster.go lines 61-70): the
`localNode` field is absent from the literal, so it is the nil pointer. -/
def NewCluster (name localName : String) (st : ClusterState) : Cluster :=
  { name := name, LocalName := localName, localNode := none, state := st }

/-- `Cluster.Name` (cluster.go lines 75-77) returns `c.localNode.Name`;
dereferencing a nil `localNode` is a runtime panic, modelled as `none`. -/
def Cluster.Name (c : Cluster) : Option String :=
  c.localNode.map Node.Name

/-- `Cluster.Update` (cluster.go lines 132-140): assigns `c.localNode`.
The delegate wiring and `ml.UpdateNode` call are engine side effects with
no bearing on the model's state. -/
def Cluster.Update (c : Cluster) (localNode : Node) : Cluster :=
  { c with localNode := some localNode }

/-- Environment of external calls made by `Cluster.Join`:
`net.ParseIP`, `net.LookupIP` (string resolution, lines 87-93, `none`
modelling a lookup error), `ml.Members()` projected to member addresses
(line 104), `addr.String()` (line 112), `ml.Join` (line 116, `none`
modelling a non-nil error, `some k` the joined count), and the
`ml.NumMembers()` value observed after the join attempt (line 118). -/
structure JoinEnv where
  parseIP : String → Option IP
  lookupIP : String → Option (List IP)
  memberAddrs : List IP
  ipString : IP → String
  mlJoin : List String → Option Nat
  numMembersAfter : Nat

/-- The resolution loop of `Cluster.Join` (cluster.go lines 87-93): a
literal address is used directly; otherwise the host is looked up and all
its addresses appended; a failed lookup contributes nothing. -/
def resolveHosts (env : JoinEnv) : List String → List IP
  | [] => []
  | host :: rest =>
    match env.parseIP host with
    | some addr => addr :: resolveHosts env rest
    | none =>
      match env.lookupIP host with
      | some ips => ips ++ resolveHosts env rest
      | none => resolveHosts env rest

/-- The fallback of `Cluster.Join` (cluster.go lines 96-100): when the
resolved address list is empty, the addresses of the persisted node list
are used instead. -/
def joinAddrs (env : JoinEnv) (st : ClusterState) (hosts : List String) :
    List IP :=
  let addrs := resolveHosts env hosts
  if addrs.length = 0 then st.Nodes.map Node.Addr else addrs

/-- The member filter of `Cluster.Join` (cluster.go lines 102-113): drop
every candidate address equal to some current member's address. -/
def attemptedAddrs (env : JoinEnv) (st : ClusterState) (hosts : List String) :
    List IP :=
  (joinAddrs env st hosts).filter
    (fun addr => ! env.memberAddrs.any (fun m => IP.Equal m addr))

/-- The target strings passed to `ml.Join` (cluster.go line 112:
`targets = append(targets, addr.String())`). -/
def joinTargets (env : JoinEnv) (st : ClusterState) (hosts : List String) :
    List String :=
  (attemptedAddrs env st hosts).map env.ipString

/-- The two error exits of `Cluster.Join`: the wrapped engine error
(line 117) and the quorum error (line 119). -/
inductive JoinError
  | engine
  | quorum
  deriving DecidableEq, Repr

/-- `Cluster.Join` (cluster.go lines 82-122): resolve, fall back to the
persisted peers, filter out current members, call `ml.Join`, and fail when
targets were attempted but membership stayed below 2. -/
def Cluster.Join (c : Cluster) (env : JoinEnv) (hosts : List String) :
    Except JoinError Unit :=
  let targets := joinTargets env c.state hosts
  match env.mlJoin targets with
  | none => Except.error JoinError.engine
  | some _ =>
    if 0 < targets.length ∧ env.numMembersAfter < 2 then
      Except.error JoinError.quorum
    else
      Except.ok ()

/-- The externally visible steps of `Cluster.Leave`.  `saveState` models
`c.state.save(c.name)`; `save`'s body is in `state.go`, which is not among
the sources at hand — modelled from the spec: it flushes the given
in-memory state to persisted storage under the given name.  `mlLeave t`
models `ml.Leave(t seconds)` (the departure broadcast with a bounded
timeout) and `mlShutdown` models `ml.Shutdown()`. -/
inductive Effect
  | saveState (st : ClusterState) (name : String)
  | mlLeave (timeoutSeconds : Nat)
  | mlShutdown
  deriving DecidableEq, Repr

/-- `Cluster.Leave` (cluster.go lines 125-129) as the ordered trace of the
effects it performs. -/
def Cluster.Leave (c : Cluster) : List Effect :=
  [Effect.saveState c.state c.name, Effect.mlLeave 10, Effect.mlShutdown]

/-- `memberlist.NodeEventType` (join/update/leave). -/
inductive MLEventKind
  | NodeJoin
  | NodeUpdate
  | NodeLeave
  deriving DecidableEq, Repr

/-- A `memberlist.Node` as read by cluster.go (lines 164-172). -/
structure MLMember where
  Name : String
  Addr : IP
  Meta : List Nat
  deriving DecidableEq, Repr

/-- A `memberlist.NodeEvent` received on the events channel. -/
structure NodeEvent where
  Event : MLEventKind
  Node : MLMember
  deriving DecidableEq, Repr

/-- The snapshot recomputation inside the `Members` loop (cluster.go lines
163-173): re-enumerate the engine's roster, skip entries named like the
local node, and project each to a `common.Node`. -/
def recomputeNodes (localName : String) (roster : List MLMember) :
    List Node :=
  (roster.filter (fun n => n.Name != localName)).map
    (fun n => { Name := n.Name, Addr := n.Addr, Meta := n.Meta })

/-- One iteration of the `Members` goroutine loop (cluster.go lines
148-177): an event about the local node is dropped (`none`, nothing
published); any other event recomputes the snapshot from the engine's
roster, stores it into `state.Nodes` and publishes it.  The `roster`
argument is the value of `ml.Members()` at that iteration. -/
def membersStep (localName : String) (event : NodeEvent)
    (roster : List MLMember) (st : ClusterState) :
    Option (List Node × ClusterState) :=
  if event.Node.Name = localName then
    none
  else
    let nodes := recomputeNodes localName roster
    some (nodes, { st with Nodes := nodes })

/-- The `Members` loop run over a finite prefix of the event stream, each
event paired with the roster the engine reports at that moment; returns
the list of published snapshots in order and the final state. -/
def membersRun (localName : String) (st : ClusterState) :
    List (NodeEvent × List MLMember) → List (List Node) × ClusterState
  | [] => ([], st)
  | (ev, roster) :: rest =>
    match membersStep localName ev roster st with
    | none => membersRun localName st rest
    | some (pub, st1) =>
      let r := membersRun localName st1 rest
      (pub :: r.1, r.2)

/-! ## Theorems -/

/-- C1: for every combination of explicit key (present or absent) and
persisted key (present or absent), `computeClusterKey` returns the explicit
key if it is non-empty, else the persisted key from state if non-empty,
else a freshly generated random value of `KeyLen` (32) bytes. -/
theorem C1_key_precedence (st : ClusterState) (ek : List Nat)
    (rs : Nat → Nat) :
    (ek ≠ [] → computeClusterKey st ek true rs =
      some (ek, { st with ClusterKey := ek })) ∧
    (ek = [] → st.ClusterKey ≠ [] → computeClusterKey st ek true rs =
      some (st.ClusterKey, st)) ∧
    (ek = [] → st.ClusterKey = [] → ∃ fresh : List Nat,
      computeClusterKey st ek true rs =
        some (fresh, { st with ClusterKey := fresh }) ∧
      fresh.length = KeyLen) := by
  refine ⟨?_, ?_, ?_⟩
  · intro h
    simp [computeClusterKey, List.length_eq_zero, h]
  · intro h hp
    simp [computeClusterKey, List.length_eq_zero, h, hp]
  · intro h hp
    exact ⟨(List.range KeyLen).map rs,
      by simp [computeClusterKey, List.length_eq_zero, h, hp], by simp⟩

/-- C1 witness: a concrete non-empty explicit key wins over a non-empty
persisted key. -/
theorem C1_key_precedence_witness :
    computeClusterKey { ClusterKey := [9, 9], Nodes := [] } [1, 2, 3] true
        (fun _ => 7) =
      some ([1, 2, 3], { ClusterKey := [1, 2, 3], Nodes := [] }) :=
  (C1_key_precedence { ClusterKey := [9, 9], Nodes := [] } [1, 2, 3]
    (fun _ => 7)).1 (by decide)

/-- C8: whenever `computeClusterKey` succeeds, the returned key has been
stored into the state's `ClusterKey` field, and the only other state field
(`Nodes`, the persisted peer list) is unchanged. -/
theorem C8_key_frame (st : ClusterState) (ek : List Nat) (rOk : Bool)
    (rs : Nat → Nat) (k : List Nat) (st1 : ClusterState)
    (h : computeClusterKey st ek rOk rs = some (k, st1)) :
    st1.ClusterKey = k ∧ st1.Nodes = st.Nodes := by
  unfold computeClusterKey at h
  by_cases h1 : ek.length = 0 <;> by_cases h2 : st.ClusterKey.length = 0 <;>
    cases rOk <;> simp [h1, h2] at h <;>
    obtain ⟨hk, hst⟩ := h <;> subst hk <;> subst hst <;> exact ⟨rfl, rfl⟩

/-- C8 witness: concrete run storing the resolved key, leaving the peer
list untouched. -/
theorem C8_key_frame_witness :
    let st : ClusterState :=
      { ClusterKey := [], Nodes := [{ Name := "p", Addr := [4], Meta := [] }] }
    let st1 : ClusterState :=
      { ClusterKey := [5], Nodes := [{ Name := "p", Addr := [4], Meta := [] }] }
    st1.ClusterKey = [5] ∧ st1.Nodes = st.Nodes :=
  C8_key_frame
    { ClusterKey := [], Nodes := [{ Name := "p", Addr := [4], Meta := [] }] }
    [5] true (fun _ => 0) [5]
    { ClusterKey := [5], Nodes := [{ Name := "p", Addr := [4], Meta := [] }] }
    (by decide)

/-- C10: `computeClusterKey` never validates key length: any non-empty
explicit key, and any non-empty persisted key, of any length, is returned
unchanged and stored into the state — independently of the random source
(which only matters for fresh generation). -/
theorem C10_no_length_check (st : ClusterState) (ek : List Nat)
    (rOk : Bool) (rs : Nat → Nat) :
    (ek ≠ [] → computeClusterKey st ek rOk rs =
      some (ek, { st with ClusterKey := ek })) ∧
    (ek = [] → st.ClusterKey ≠ [] → computeClusterKey st ek rOk rs =
      some (st.ClusterKey, st)) := by
  refine ⟨?_, ?_⟩
  · intro h
    simp [computeClusterKey, List.length_eq_zero, h]
  · intro h hp
    simp [computeClusterKey, List.length_eq_zero, h, hp]

/-- C10 witness: a 5-byte explicit key (not 32 bytes) is accepted,
returned and stored as-is, even with a failing random source. -/
theorem C10_no_length_check_witness :
    computeClusterKey { ClusterKey := [], Nodes := [] } [1, 2, 3, 4, 5]
        false (fun _ => 0) =
      some ([1, 2, 3, 4, 5], { ClusterKey := [1, 2, 3, 4, 5], Nodes := [] }) :=
  (C10_no_length_check { ClusterKey := [], Nodes := [] } [1, 2, 3, 4, 5]
    false (fun _ => 0)).1 (by decide)

/-- C2: whenever at least one target remains after filtering and is
attempted, and the engine's join call returns without error, `Join` still
returns an error (the quorum error) if the membership size observed after
the attempt is below 2. -/
theorem C2_join_quorum (c : Cluster) (env : JoinEnv) (hosts : List String)
    (k : Nat)
    (hT : joinTargets env c.state hosts ≠ [])
    (hE : env.mlJoin (joinTargets env c.state hosts) = some k)
    (hN : env.numMembersAfter < 2) :
    Cluster.Join c env hosts = Except.error JoinError.quorum := by
  simp only [Cluster.Join, hE]
  rw [if_pos ⟨List.length_pos.mpr hT, hN⟩]

/-- C2 witness: a single fresh target, an engine join that reports success,
but only 1 member afterwards: Join returns the quorum error. -/
theorem C2_join_quorum_witness :
    Cluster.Join
      { name := "wg0", LocalName := "self", localNode := none,
        state := { ClusterKey := [], Nodes := [] } }
      { parseIP := fun _ => some [1], lookupIP := fun _ => none,
        memberAddrs := [], ipString := fun _ => "1",
        mlJoin := fun _ => some 1, numMembersAfter := 1 }
      ["peer"] = Except.error JoinError.quorum :=
  C2_join_quorum
    { name := "wg0", LocalName := "self", localNode := none,
      state := { ClusterKey := [], Nodes := [] } }
    { parseIP := fun _ => some [1], lookupIP := fun _ => none,
      memberAddrs := [], ipString := fun _ => "1",
      mlJoin := fun _ => some 1, numMembersAfter := 1 }
    ["peer"] 1 (by decide) rfl (by decide)

/-- C3: every candidate address equal to a live member's address is
excluded from the attempted targets; with membership [A] and targets
resolving to A and B only B is attempted; and with a target resolving to A
alone nothing is attempted and Join succeeds (given the engine accepts an
empty join). -/
theorem C3_join_filtering (env : JoinEnv) (c : Cluster)
    (hosts : List String) :
    (∀ a ∈ joinAddrs env c.state hosts,
      env.memberAddrs.any (fun m => IP.Equal m a) = true →
        a ∉ attemptedAddrs env c.state hosts) ∧
    (∀ (A B : IP) (sA sB : String),
      env.parseIP sA = some A → env.parseIP sB = some B →
      env.memberAddrs = [A] → A ≠ B →
      attemptedAddrs env c.state [sA, sB] = [B]) ∧
    (∀ (A : IP) (sA : String) (k : Nat),
      env.parseIP sA = some A → env.memberAddrs = [A] →
      env.mlJoin [] = some k →
      attemptedAddrs env c.state [sA] = [] ∧
      Cluster.Join c env [sA] = Except.ok ()) := by
  refine ⟨?_, ?_, ?_⟩
  · intro a _ hmem hcontra
    rw [attemptedAddrs, List.mem_filter, hmem] at hcontra
    exact absurd hcontra.2 (by simp)
  · intro A B sA sB hpA hpB hmem hne
    simp [attemptedAddrs, joinAddrs, resolveHosts, hpA, hpB, hmem,
      IP.Equal, hne]
  · intro A sA k hpA hmem hml
    have hatt : attemptedAddrs env c.state [sA] = [] := by
      simp [attemptedAddrs, joinAddrs, resolveHosts, hpA, hmem, IP.Equal]
    exact ⟨hatt, by simp [Cluster.Join, joinTargets, hatt, hml]⟩

/-- C3 witness: membership [1], targets resolving to addresses [1] and [2]:
only [2] is attempted. -/
theorem C3_join_filtering_witness :
    attemptedAddrs
      { parseIP := fun s => if s = "a" then some [1] else some [2],
        lookupIP := fun _ => none, memberAddrs := [[1]],
        ipString := fun _ => "", mlJoin := fun _ => some 0,
        numMembersAfter := 2 }
      { ClusterKey := [], Nodes := [] }
      ["a", "b"] = [[2]] :=
  (C3_join_filtering
    { parseIP := fun s => if s = "a" then some [1] else some [2],
      lookupIP := fun _ => none, memberAddrs := [[1]],
      ipString := fun _ => "", mlJoin := fun _ => some 0,
      numMembersAfter := 2 }
    { name := "wg0", LocalName := "self", localNode := none,
      state := { ClusterKey := [], Nodes := [] } }
    ["a", "b"]).2.1 [1] [2] "a" "b" (by decide) (by decide) rfl (by decide)

/-- C4 counterexample: a call to Join with a non-empty supplied target list
whose single name fails both the literal parse and the lookup still uses
the persisted peer list as its candidates, contradicting the claim that
the persisted list is used only when no targets were supplied at all. -/
theorem C4_fallback_counterexample :
    (["unresolvable"] : List String) ≠ [] ∧
    resolveHosts
      { parseIP := fun _ => none, lookupIP := fun _ => none,
        memberAddrs := [], ipString := fun _ => "",
        mlJoin := fun _ => some 0, numMembersAfter := 1 }
      ["unresolvable"] = [] ∧
    joinAddrs
      { parseIP := fun _ => none, lookupIP := fun _ => none,
        memberAddrs := [], ipString := fun _ => "",
        mlJoin := fun _ => some 0, numMembersAfter := 1 }
      { ClusterKey := [], Nodes := [{ Name := "p", Addr := [9], Meta := [] }] }
      ["unresolvable"] = [[9]] :=
  ⟨by decide, rfl, rfl⟩

/-- C4 amended: the persisted peer list is used as join candidates exactly
when resolving the supplied targets yields zero addresses — always when no
targets were supplied, but also when every supplied target fails to
resolve; when resolution yields at least one address the persisted list is
not consulted. -/
theorem C4_fallback_amended (env : JoinEnv) (st : ClusterState)
    (hosts : List String) :
    (hosts = [] → joinAddrs env st hosts = st.Nodes.map Node.Addr) ∧
    (resolveHosts env hosts = [] →
      joinAddrs env st hosts = st.Nodes.map Node.Addr) ∧
    (resolveHosts env hosts ≠ [] →
      joinAddrs env st hosts = resolveHosts env hosts) := by
  refine ⟨?_, ?_, ?_⟩
  · intro h
    subst h
    simp [joinAddrs, resolveHosts]
  · intro h
    simp [joinAddrs, h]
  · intro h
    simp [joinAddrs, List.length_eq_zero, h]

/-- C4 amended witness: a target that resolves bypasses a non-empty
persisted peer list. -/
theorem C4_fallback_amended_witness :
    joinAddrs
      { parseIP := fun _ => some [7], lookupIP := fun _ => none,
        memberAddrs := [], ipString := fun _ => "",
        mlJoin := fun _ => some 0, numMembersAfter := 2 }
      { ClusterKey := [], Nodes := [{ Name := "p", Addr := [9], Meta := [] }] }
      ["peer"] = [[7]] := by
  have h := (C4_fallback_amended
    { parseIP := fun _ => some [7], lookupIP := fun _ => none,
      memberAddrs := [], ipString := fun _ => "",
      mlJoin := fun _ => some 0, numMembersAfter := 2 }
    { ClusterKey := [], Nodes := [{ Name := "p", Addr := [9], Meta := [] }] }
    ["peer"]).2.2 (by decide)
  simpa using h

/-- C5: a target parsing as a literal address contributes exactly itself; a
non-literal target contributes every address its lookup yields; a target
failing both parse and lookup contributes nothing, leaving Join's result
unchanged (no error caused). -/
theorem C5_resolution_skip (env : JoinEnv) (c : Cluster) (host : String)
    (rest : List String) :
    (∀ a, env.parseIP host = some a →
      resolveHosts env (host :: rest) = a :: resolveHosts env rest) ∧
    (∀ ips, env.parseIP host = none → env.lookupIP host = some ips →
      resolveHosts env (host :: rest) = ips ++ resolveHosts env rest) ∧
    (env.parseIP host = none → env.lookupIP host = none →
      resolveHosts env (host :: rest) = resolveHosts env rest ∧
      Cluster.Join c env (host :: rest) = Cluster.Join c env rest) := by
  refine ⟨?_, ?_, ?_⟩
  · intro a h
    simp [resolveHosts, h]
  · intro ips h1 h2
    simp [resolveHosts, h1, h2]
  · intro h1 h2
    have hres : resolveHosts env (host :: rest) = resolveHosts env rest := by
      simp [resolveHosts, h1, h2]
    exact ⟨hres, by
      simp only [Cluster.Join, joinTargets, attemptedAddrs, joinAddrs, hres]⟩

/-- C5 witness: an unresolvable first target is skipped and Join's result
is as if it were absent. -/
theorem C5_resolution_skip_witness :
    resolveHosts
      { parseIP := fun s => if s = "bad" then none else some [3],
        lookupIP := fun _ => none, memberAddrs := [],
        ipString := fun _ => "3", mlJoin := fun _ => some 1,
        numMembersAfter := 2 }
      ("bad" :: ["good"]) =
    resolveHosts
      { parseIP := fun s => if s = "bad" then none else some [3],
        lookupIP := fun _ => none, memberAddrs := [],
        ipString := fun _ => "3", mlJoin := fun _ => some 1,
        numMembersAfter := 2 }
      ["good"] ∧
    Cluster.Join
      { name := "wg0", LocalName := "self", localNode := none,
        state := { ClusterKey := [], Nodes := [] } }
      { parseIP := fun s => if s = "bad" then none else some [3],
        lookupIP := fun _ => none, memberAddrs := [],
        ipString := fun _ => "3", mlJoin := fun _ => some 1,
        numMembersAfter := 2 }
      ("bad" :: ["good"]) =
    Cluster.Join
      { name := "wg0", LocalName := "self", localNode := none,
        state := { ClusterKey := [], Nodes := [] } }
      { parseIP := fun s => if s = "bad" then none else some [3],
        lookupIP := fun _ => none, memberAddrs := [],
        ipString := fun _ => "3", mlJoin := fun _ => some 1,
        numMembersAfter := 2 }
      ["good"] :=
  (C5_resolution_skip
    { parseIP := fun s => if s = "bad" then none else some [3],
      lookupIP := fun _ => none, memberAddrs := [],
      ipString := fun _ => "3", mlJoin := fun _ => some 1,
      numMembersAfter := 2 }
    { name := "wg0", LocalName := "self", localNode := none,
      state := { ClusterKey := [], Nodes := [] } }
    "bad" ["good"]).2.2 (by decide) rfl

/-- C6: Leave's effect trace is exactly: flush the in-memory state to the
persisted store, then broadcast departure with the bounded 10-second
timeout, then shut the engine down — so the state save precedes the
departure broadcast on every call. -/
theorem C6_persist_before_leave (c : Cluster) :
    Cluster.Leave c =
      [Effect.saveState c.state c.name, Effect.mlLeave 10,
       Effect.mlShutdown] :=
  rfl

theorem recomputeNodes_not_local (localName : String)
    (roster : List MLMember) :
    ∀ n ∈ recomputeNodes localName roster, n.Name ≠ localName := by
  intro n hn
  simp only [recomputeNodes, List.mem_map, List.mem_filter] at hn
  obtain ⟨m, ⟨_, hm⟩, rfl⟩ := hn
  simpa using hm

theorem membersRun_published (localName : String)
    (evs : List (NodeEvent × List MLMember)) :
    ∀ (st : ClusterState), ∀ s ∈ (membersRun localName st evs).1,
      ∃ roster, s = recomputeNodes localName roster := by
  induction evs with
  | nil =>
    intro st s hs
    simp [membersRun] at hs
  | cons p rest ih =>
    intro st s hs
    obtain ⟨ev, roster⟩ := p
    by_cases h : ev.Node.Name = localName
    · simp only [membersRun, membersStep, if_pos h] at hs
      exact ih st s hs
    · simp only [membersRun, membersStep, if_neg h] at hs
      rcases List.mem_cons.mp hs with h1 | h2
      · exact ⟨roster, h1⟩
      · exact ih _ s h2

/-- C7: the local node's own name never appears in any published snapshot;
events whose node name equals the local name are dropped without
publishing; and every forwarded event publishes the snapshot recomputed
from the engine's full roster with every entry named like the local node
excluded. -/
theorem C7_self_exclusion (localName : String) (st : ClusterState)
    (evs : List (NodeEvent × List MLMember)) :
    (∀ s ∈ (membersRun localName st evs).1,
      ∀ n ∈ s, n.Name ≠ localName) ∧
    (∀ (ev : NodeEvent) (roster : List MLMember) (st0 : ClusterState),
      ev.Node.Name = localName →
        membersStep localName ev roster st0 = none) ∧
    (∀ (ev : NodeEvent) (roster : List MLMember) (st0 : ClusterState)
        (pub : List Node) (st1 : ClusterState),
      membersStep localName ev roster st0 = some (pub, st1) →
      pub = recomputeNodes localName roster ∧
      st1 = { st0 with Nodes := pub }) := by
  refine ⟨?_, ?_, ?_⟩
  · intro s hs n hn
    obtain ⟨roster, rfl⟩ := membersRun_published localName evs st s hs
    exact recomputeNodes_not_local localName roster n hn
  · intro ev roster st0 h
    simp [membersStep, h]
  · intro ev roster st0 pub st1 h
    by_cases h0 : ev.Node.Name = localName
    · simp [membersStep, h0] at h
    · simp only [membersStep, if_neg h0, Option.some.injEq,
        Prod.mk.injEq] at h
      obtain ⟨hpub, hst⟩ := h
      subst hpub
      subst hst
      exact ⟨rfl, rfl⟩

/-- C7 witness: an event about the local node itself is dropped. -/
theorem C7_self_exclusion_witness :
    membersStep "self"
      { Event := MLEventKind.NodeJoin,
        Node := { Name := "self", Addr := [1], Meta := [] } }
      [{ Name := "self", Addr := [1], Meta := [] },
       { Name := "other", Addr := [2], Meta := [] }]
      { ClusterKey := [], Nodes := [] } = none :=
  (C7_self_exclusion "self" { ClusterKey := [], Nodes := [] } []).2.1
    { Event := MLEventKind.NodeJoin,
      Node := { Name := "self", Addr := [1], Meta := [] } }
    [{ Name := "self", Addr := [1], Meta := [] },
     { Name := "other", Addr := [2], Meta := [] }]
    { ClusterKey := [], Nodes := [] } (by decide)

/-- C9: `Name` on a freshly constructed cluster reads through the nil
`localNode` pointer (modelled as `none`, the crash); `Update` is what
assigns `localNode`, after which `Name` returns the descriptor's name; the
`LocalName` field, set at construction, is distinct. -/
theorem C9_name_nil_before_update (name localName : String)
    (st : ClusterState) :
    Cluster.Name (NewCluster name localName st) = none ∧
    (NewCluster name localName st).localNode = none ∧
    (NewCluster name localName st).LocalName = localName ∧
    (∀ (c : Cluster) (n : Node),
      Cluster.Name (Cluster.Update c n) = some n.Name) :=
  ⟨rfl, rfl, rfl, fun _ _ => rfl⟩

end Wesher
